import Mathlib

/-!
Verification development for the DigiByte Quantum Adaptive Core
(`src/adaptive_core`): a shallow embedding of the data model and the
operations of `models.py`, `engine.py`, `memory.py`, `threat_memory.py`,
`threat_packet.py` and `pattern_engine.py`, together with theorems about
the embedded operations.

Modelling conventions:
* Python floats are modelled as rationals (`ℚ`); decimal literals such as
  `0.05` are exact rationals, mirroring the fixed-step deltas of the code.
* Python dicts are modelled as insertion-ordered association lists
  `List (String × α)`: assignment to an existing key updates it in place,
  assignment to a fresh key appends it, and iteration follows list order,
  exactly like CPython dict semantics (keys are unique in every dict the
  code ever builds; the operations below extend that behaviour totally).
* Sources of nondeterminism (`datetime.utcnow()`, `uuid.uuid4()`) are
  passed in as explicit arguments.
-/

namespace DQAC

/-- Python builtin `min` on two floats: the first argument wins ties. -/
def pyMin (a b : ℚ) : ℚ := if b < a then b else a

/-- Python builtin `max` on two floats: the first argument wins ties. -/
def pyMax (a b : ℚ) : ℚ := if b > a then b else a

/-- Python `d.get(k)` / `d[k]` on an insertion-ordered dict: the first
binding for `k`, if any. -/
def dictGet {α : Type} (xs : List (String × α)) (k : String) : Option α :=
  (xs.find? (fun p => p.1 = k)).map (fun p => p.2)

/-- Python `k in d`. -/
def dictContains {α : Type} (xs : List (String × α)) (k : String) : Bool :=
  xs.any (fun p => p.1 = k)

/-- Python `d[k] = v`: overwrite an existing binding in place (keeping its
position), otherwise append the new binding at the end. -/
def dictSet {α : Type} (xs : List (String × α)) (k : String) (v : α) :
    List (String × α) :=
  if dictContains xs k then
    xs.map (fun p => if p.1 = k then (k, v) else p)
  else
    xs ++ [(k, v)]

/-! Section: Data model (`models.py`) -/

/-- Embedding of `FeedbackType` from `models.py`: how an incident was classified after
the fact. -/
inductive FeedbackType where
  | TRUE_POSITIVE
  | FALSE_POSITIVE
  | MISSED_ATTACK
  | UNKNOWN
  deriving DecidableEq, Repr

/-- Embedding of `RiskEvent` from `models.py`: a single incident observed by the shield.
`created_at` (a `datetime`, auto-filled, never read by the engine) is kept
as an ISO string. -/
structure RiskEvent where
  event_id : String
  layer : String
  risk_score : ℚ
  risk_level : String
  fingerprint : Option String := none
  created_at : String := ""
  feedback : FeedbackType := FeedbackType.UNKNOWN
  deriving DecidableEq, Repr

/-- Embedding of `LayerAdjustment` from `models.py`: net per-layer change over one
batch. -/
structure LayerAdjustment where
  weight_delta : ℚ := 0
  threshold_shift : ℚ := 0
  notes : Option String := none
  deriving DecidableEq, Repr

/-- Python `LayerAdjustment()`: all fields at their defaults. -/
def LayerAdjustment.init : LayerAdjustment := {}

/-- Embedding of `AdaptiveState` from `models.py`: the live adaptive parameters.
`last_updated` (a `datetime`, never read by the engine) is kept as an ISO
string. -/
structure AdaptiveState where
  layer_weights : List (String × ℚ)
  global_threshold : ℚ := 0.5
  last_updated : String := ""
  deriving DecidableEq, Repr

/-- Embedding of `AdaptiveUpdateResult` from `models.py`. -/
structure AdaptiveUpdateResult where
  state : AdaptiveState
  per_layer : List (String × LayerAdjustment)
  processed_events : List String
  deriving DecidableEq, Repr

/-! Section: Reinforcement engine (`engine.py`) -/

/-- The pair of mutable locals threaded through `apply_learning`:
`self.state` and the `per_layer` accumulator. -/
structure EngineBatchState where
  state : AdaptiveState
  per_layer : List (String × LayerAdjustment)
  deriving DecidableEq, Repr

/-- Embedding of `AdaptiveEngine._apply_single_event`: seed an unseen layer at weight
1.0 (resetting its `per_layer` entry), then apply the delta for the
event's feedback kind. -/
def applySingleEvent (st : EngineBatchState) (e : RiskEvent) : EngineBatchState :=
  let st :=
    if dictContains st.state.layer_weights e.layer then st
    else
      { state := { st.state with
          layer_weights := dictSet st.state.layer_weights e.layer 1.0 },
        per_layer := dictSet st.per_layer e.layer LayerAdjustment.init }
  match e.feedback with
  | FeedbackType.TRUE_POSITIVE =>
    let w := (dictGet st.state.layer_weights e.layer).getD 0
    let adj := (dictGet st.per_layer e.layer).getD LayerAdjustment.init
    { state := { st.state with
        layer_weights := dictSet st.state.layer_weights e.layer (w + 0.05),
        global_threshold := st.state.global_threshold + 0.01 },
      per_layer := dictSet st.per_layer e.layer
        { adj with
          weight_delta := adj.weight_delta + 0.05,
          threshold_shift := adj.threshold_shift + 0.01 } }
  | FeedbackType.FALSE_POSITIVE =>
    let w := (dictGet st.state.layer_weights e.layer).getD 0
    let adj := (dictGet st.per_layer e.layer).getD LayerAdjustment.init
    { state := { st.state with
        layer_weights := dictSet st.state.layer_weights e.layer (w - 0.05),
        global_threshold := st.state.global_threshold - 0.01 },
      per_layer := dictSet st.per_layer e.layer
        { adj with
          weight_delta := adj.weight_delta - 0.05,
          threshold_shift := adj.threshold_shift - 0.01 } }
  | FeedbackType.MISSED_ATTACK =>
    { state := { st.state with
        layer_weights := st.state.layer_weights.map (fun p => (p.1, p.2 + 0.02)),
        global_threshold := st.state.global_threshold + 0.02 },
      per_layer := st.state.layer_weights.foldl
        (fun pl p =>
          let adj := (dictGet pl p.1).getD LayerAdjustment.init
          dictSet pl p.1 { adj with weight_delta := adj.weight_delta + 0.02 })
        st.per_layer }
  | FeedbackType.UNKNOWN => st

/-- Embedding of `AdaptiveEngine._clamp_state`: keep every weight in `[0.1, 5.0]` and
the global threshold in `[0.1, 0.9]`. -/
def clampState (s : AdaptiveState) : AdaptiveState :=
  { s with
    layer_weights := s.layer_weights.map (fun p => (p.1, pyMax 0.1 (pyMin 5.0 p.2))),
    global_threshold := pyMax 0.1 (pyMin 0.9 s.global_threshold) }

/-- Embedding of `AdaptiveEngine.apply_learning`: initialise a `LayerAdjustment` per
known layer, fold `_apply_single_event` over the batch, then clamp once. -/
def applyLearning (state : AdaptiveState) (events : List RiskEvent) :
    AdaptiveUpdateResult :=
  let perLayer0 := state.layer_weights.map (fun p => (p.1, LayerAdjustment.init))
  let final := events.foldl applySingleEvent ⟨state, perLayer0⟩
  { state := clampState final.state,
    per_layer := final.per_layer,
    processed_events := events.map (fun e => e.event_id) }

/-- Concrete state used by several witnesses below. -/
def stateW : AdaptiveState :=
  { layer_weights := [("sentinel", 1)], global_threshold := 0.5 }

/-- Concrete TRUE_POSITIVE event used by several witnesses below. -/
def eventTP : RiskEvent :=
  { event_id := "e1", layer := "sentinel", risk_score := 0.9,
    risk_level := "high", feedback := FeedbackType.TRUE_POSITIVE }

/-- Concrete FALSE_POSITIVE event used by witnesses below. -/
def eventFP : RiskEvent :=
  { event_id := "e2", layer := "sentinel", risk_score := 0.2,
    risk_level := "low", feedback := FeedbackType.FALSE_POSITIVE }

/-! Section: Threat packets (`threat_packet.py`) -/

/-- Constructor arguments of `ThreatPacket` before `__post_init__` runs
(also the shape of `to_dict` output and of one JSON array element in the
persisted file). `metadata` values are layer-specific JSON data never
inspected by the core; they are modelled as strings. -/
structure RawThreatPacket where
  source_layer : String
  threat_type : String
  severity : Int
  description : String
  node_id : Option String := none
  wallet_id : Option String := none
  tx_id : Option String := none
  block_height : Option Int := none
  metadata : Option (List (String × String)) := none
  correlation_id : String := ""
  timestamp : String := ""
  deriving DecidableEq, Repr

/-- A `ThreatPacket` after successful `__post_init__`: `metadata` is always
a dict and `severity` has been clamped into `[0, 10]`. -/
structure ThreatPacket where
  source_layer : String
  threat_type : String
  severity : Int
  description : String
  node_id : Option String
  wallet_id : Option String
  tx_id : Option String
  block_height : Option Int
  metadata : List (String × String)
  correlation_id : String
  timestamp : String
  deriving DecidableEq, Repr

/-- Embedding of `ThreatPacket.to_dict` (`dataclasses.asdict`): the plain field record. -/
def ThreatPacket.toDict (p : ThreatPacket) : RawThreatPacket :=
  { source_layer := p.source_layer, threat_type := p.threat_type,
    severity := p.severity, description := p.description,
    node_id := p.node_id, wallet_id := p.wallet_id, tx_id := p.tx_id,
    block_height := p.block_height, metadata := some p.metadata,
    correlation_id := p.correlation_id, timestamp := p.timestamp }

/-! Section: Threat memory (`threat_memory.py`) -/

/-- Embedding of `ThreatMemory`: the in-memory packet list and the capacity
`max_packets` (a Python int, so possibly non-positive). The file path is
irrelevant to the embedded operations; persistence is modelled as the
JSON array contents (a `List RawThreatPacket`). -/
structure ThreatMemory where
  packets : List ThreatPacket
  max_packets : Int := 10000
  deriving DecidableEq, Repr

/-- Embedding of `ThreatMemory._enforce_limit`: non-positive caps mean no storage;
otherwise drop the oldest `excess` packets from the front. -/
def enforceLimit (m : ThreatMemory) : ThreatMemory :=
  if m.max_packets ≤ 0 then { m with packets := [] }
  else
    let excess : Int := (m.packets.length : Int) - m.max_packets
    if excess > 0 then { m with packets := m.packets.drop excess.toNat } else m

/-- Embedding of `ThreatMemory.add_packet`: append, then prune. -/
def addPacket (m : ThreatMemory) (p : ThreatPacket) : ThreatMemory :=
  enforceLimit { m with packets := m.packets ++ [p] }

/-- Sample packet used by witnesses below. -/
def pktW : ThreatPacket :=
  { source_layer := "sentinel", threat_type := "reorg", severity := 5,
    description := "w", node_id := none, wallet_id := none, tx_id := none,
    block_height := none, metadata := [], correlation_id := "cid-1",
    timestamp := "2026-01-01T12:00:00Z" }

/-- Second sample packet used by witnesses below. -/
def pktW2 : ThreatPacket :=
  { source_layer := "adn", threat_type := "pqc_risk", severity := 9,
    description := "w2", node_id := some "n1", wallet_id := none,
    tx_id := none, block_height := some 7, metadata := [("k", "v")],
    correlation_id := "cid-2", timestamp := "2026-01-02T00:00:00Z" }

/-! Section: C10: `list_packets` returns a fresh copy

Python list aliasing is made explicit with a tiny heap of list cells:
CPython objects live at addresses, `list(xs)` allocates a new cell holding
the same elements, and in-place mutation writes to one cell. `list_packets`
is `return list(self._packets)`, i.e. an allocation of a copy — not a
return of the store's own cell address. -/

/-- A heap of Python list objects; an address is an index into `cells`. -/
structure Heap where
  cells : List (List ThreatPacket)
  deriving DecidableEq, Repr

/-- Dereference an address (out-of-range reads, never exercised, give
an empty list). -/
def heapRead (h : Heap) (a : ℕ) : List ThreatPacket :=
  h.cells.getD a []

/-- In-place mutation of the list object at address `a`: appending,
removing or reordering elements is some replacement of the cell's
contents. -/
def heapWrite (h : Heap) (a : ℕ) (v : List ThreatPacket) : Heap :=
  ⟨h.cells.set a v⟩

/-- Embedding of `list(xs)`: allocate a fresh cell holding the given elements and
return its (new) address. -/
def heapAlloc (h : Heap) (v : List ThreatPacket) : Heap × ℕ :=
  (⟨h.cells ++ [v]⟩, h.cells.length)

/-- Embedding of `ThreatMemory.list_packets` under the heap model: `list(self._packets)`
copies the store's cell into a freshly allocated cell and returns the
fresh address. `store` is the address of `self._packets`. -/
def listPacketsRef (h : Heap) (store : ℕ) : Heap × ℕ :=
  heapAlloc h (heapRead h store)

/-! Section: Timestamp parsing (model of CPython `datetime.fromisoformat`) -/

/-- Numeric value of a digit string. -/
def digitsVal (cs : List Char) : ℕ :=
  cs.foldl (fun n c => 10 * n + (c.toNat - ('0').toNat)) 0

def isLeapYear (y : ℕ) : Bool :=
  (y % 4 = 0 && y % 100 ≠ 0) || y % 400 = 0

def daysInMonth (y m : ℕ) : ℕ :=
  if m = 2 then (if isLeapYear y then 29 else 28)
  else if m = 4 ∨ m = 6 ∨ m = 9 ∨ m = 11 then 30
  else 31

/-- A parsed naive datetime (the UTC-offset suffix is validated but not
stored: the engine only ever formats the clock fields). -/
structure PyDateTime where
  year : ℕ
  month : ℕ
  day : ℕ
  hour : ℕ
  minute : ℕ
  second : ℕ
  microsecond : ℕ
  deriving DecidableEq, Repr

/-- Validity of a `HH:MM` or `HH:MM:SS` body of a UTC-offset suffix. -/
def validOffsetTail : List Char → Bool
  | [h1, h2, ':', m1, m2] =>
    h1.isDigit && h2.isDigit && m1.isDigit && m2.isDigit &&
      decide (digitsVal [h1, h2] < 24) && decide (digitsVal [m1, m2] < 60)
  | [h1, h2, ':', m1, m2, ':', s1, s2] =>
    h1.isDigit && h2.isDigit && m1.isDigit && m2.isDigit &&
      s1.isDigit && s2.isDigit &&
      decide (digitsVal [h1, h2] < 24) && decide (digitsVal [m1, m2] < 60) &&
      decide (digitsVal [s1, s2] < 60)
  | _ => false

/-- Validity of an optional `±HH:MM[:SS]` offset suffix. -/
def validOffset : List Char → Bool
  | [] => true
  | '+' :: r => validOffsetTail r
  | '-' :: r => validOffsetTail r
  | _ => false

/-- Parse the `HH[:MM[:SS[.ffffff]]][±HH:MM[:SS]]` time-of-day part. -/
def parseTimePart : List Char → Option (ℕ × ℕ × ℕ × ℕ)
  | h1 :: h2 :: rest =>
    if h1.isDigit && h2.isDigit && decide (digitsVal [h1, h2] < 24) then
      let hh := digitsVal [h1, h2]
      match rest with
      | [] => some (hh, 0, 0, 0)
      | ':' :: m1 :: m2 :: rest2 =>
        if m1.isDigit && m2.isDigit && decide (digitsVal [m1, m2] < 60) then
          let mm := digitsVal [m1, m2]
          match rest2 with
          | [] => some (hh, mm, 0, 0)
          | ':' :: s1 :: s2 :: rest3 =>
            if s1.isDigit && s2.isDigit && decide (digitsVal [s1, s2] < 60) then
              let ss := digitsVal [s1, s2]
              match rest3 with
              | [] => some (hh, mm, ss, 0)
              | '.' :: fr =>
                let frac := fr.takeWhile Char.isDigit
                let rest4 := fr.dropWhile Char.isDigit
                if 1 ≤ frac.length && frac.length ≤ 6 && validOffset rest4 then
                  some (hh, mm, ss, digitsVal frac * 10 ^ (6 - frac.length))
                else none
              | off => if validOffset off then some (hh, mm, ss, 0) else none
            else none
          | off => if validOffset off then some (hh, mm, 0, 0) else none
        else none
      | off => if validOffset off then some (hh, 0, 0, 0) else none
    else none
  | _ => none

/-- Model of CPython `datetime.fromisoformat` (standard library, outside
the repository): `YYYY-MM-DD`, optionally followed by a single separator
character and a time-of-day part; all field ranges validated. -/
def fromisoformat (s : String) : Option PyDateTime :=
  match s.data with
  | y1 :: y2 :: y3 :: y4 :: '-' :: m1 :: m2 :: '-' :: d1 :: d2 :: rest =>
    if y1.isDigit && y2.isDigit && y3.isDigit && y4.isDigit &&
        m1.isDigit && m2.isDigit && d1.isDigit && d2.isDigit then
      let y := digitsVal [y1, y2, y3, y4]
      let mo := digitsVal [m1, m2]
      let d := digitsVal [d1, d2]
      if 1 ≤ y ∧ 1 ≤ mo ∧ mo ≤ 12 ∧ 1 ≤ d ∧ d ≤ daysInMonth y mo then
        match rest with
        | [] => some ⟨y, mo, d, 0, 0, 0, 0⟩
        | _ :: t =>
          match parseTimePart t with
          | some (hh, mi, ss, us) => some ⟨y, mo, d, hh, mi, ss, us⟩
          | none => none
      else none
    else none
  | _ => none

/-- Python `s.replace("Z", "")` as used by the code: removes every
occurrence of `Z`, not only trailing ones. -/
def removeAllZ (s : String) : String :=
  ⟨s.data.filter (fun c => c ≠ 'Z')⟩

/-- Python `str.strip()`: remove leading and trailing whitespace. -/
def pyStrip (s : String) : String :=
  ⟨((s.data.dropWhile Char.isWhitespace).reverse.dropWhile
      Char.isWhitespace).reverse⟩

/-- The spec reading of timestamp normalisation (C8): strip only trailing
`Z` characters. Stated from the claim's words, for comparison with the
code's replace-all-Z behaviour. -/
def stripTrailingZ (s : String) : String :=
  ⟨(s.data.reverse.dropWhile (fun c => c = 'Z')).reverse⟩

/-- Embedding of `ThreatPacket.__post_init__` (with `datetime.utcnow().isoformat()` and
`str(uuid.uuid4())` passed in as `nowIso` and `uuid4`): timestamp
validation, correlation-id validation, severity clamping and metadata
defaulting, failing fast with `ValueError` modelled as `Except.error`.
`str()` normalisation of the string fields and the `isinstance(metadata,
dict)` check are identities in this typed embedding. -/
def postInit (nowIso uuid4 : String) (r : RawThreatPacket) :
    Except String ThreatPacket :=
  let tsOpt : Option String :=
    if r.timestamp = "" then some (nowIso ++ "Z")
    else if (fromisoformat (removeAllZ r.timestamp)).isSome then some r.timestamp
    else none
  match tsOpt with
  | none => Except.error ("Invalid timestamp format: " ++ r.timestamp)
  | some ts =>
    let cidOpt : Option String :=
      if r.correlation_id = "" then some uuid4
      else if pyStrip r.correlation_id = "" then none
      else some (pyStrip r.correlation_id)
    match cidOpt with
    | none => Except.error "correlation_id must be a non-empty string when provided"
    | some cid =>
      let sev : Int :=
        if r.severity < 0 then 0 else if r.severity > 10 then 10 else r.severity
      Except.ok
        { source_layer := r.source_layer, threat_type := r.threat_type,
          severity := sev, description := r.description,
          node_id := r.node_id, wallet_id := r.wallet_id, tx_id := r.tx_id,
          block_height := r.block_height, metadata := r.metadata.getD [],
          correlation_id := cid, timestamp := ts }

/-- Raw packet with an unparsable timestamp, for the C8 witness. -/
def rawBad : RawThreatPacket :=
  { source_layer := "s", threat_type := "t", severity := 5,
    description := "d", correlation_id := "cid",
    timestamp := "not-a-timestamp" }

/-- Raw packet whose timestamp has an interior `Z`, for the C8
counterexample. -/
def rawInteriorZ : RawThreatPacket :=
  { source_layer := "s", threat_type := "t", severity := 5,
    description := "d", correlation_id := "cid",
    timestamp := "2020Z-01-01" }

/-! Section: C4: persistence round-trip -/

/-- Embedding of `ThreatMemory.save`: the JSON array written to disk (serialisation of
the dicts to text is the standard library's faithful JSON encoding and is
left abstract: the file contents are the array of records). -/
def saveData (m : ThreatMemory) : List RawThreatPacket :=
  m.packets.map ThreatPacket.toDict

/-- Embedding of `ThreatMemory.load` on an existing well-formed file: rebuild each
record via `ThreatPacket.from_dict` (skipping records whose
reconstruction fails), then re-enforce the capacity. -/
def loadData (cap : Int) (nowIso uuid4 : String)
    (raw : List RawThreatPacket) : ThreatMemory :=
  enforceLimit
    { packets := raw.filterMap (fun d => (postInit nowIso uuid4 d).toOption),
      max_packets := cap }

/-- A `ThreatPacket` as produced by a successful construction: non-empty
parseable timestamp, non-empty whitespace-stripped correlation id, and
severity already clamped into `[0, 10]`. -/
def ValidPacket (p : ThreatPacket) : Prop :=
  p.timestamp ≠ "" ∧
  (fromisoformat (removeAllZ p.timestamp)).isSome = true ∧
  p.correlation_id ≠ "" ∧ pyStrip p.correlation_id = p.correlation_id ∧
  0 ≤ p.severity ∧ p.severity ≤ 10

instance decValidPacket (p : ThreatPacket) : Decidable (ValidPacket p) := by
  unfold ValidPacket
  infer_instance

/-! Section: Deep pattern engine (`pattern_engine.py`) -/

/-- Python builtin `max` on two ints. -/
def pyMaxI (a b : Int) : Int := if b > a then b else a

/-- Window parameters of `DeepPatternEngine` after `__init__`
normalisation. -/
structure DeepPatternEngine where
  short_window : Int
  long_window : Int
  deriving DecidableEq, Repr

/-- Embedding of `DeepPatternEngine.__init__`: `short_window = max(1, short_window)`,
`long_window = max(self.short_window, long_window)`. -/
def mkDeepPatternEngine (sw lw : Int) : DeepPatternEngine :=
  let s := pyMaxI 1 sw
  ⟨s, pyMaxI s lw⟩

/-- Embedding of `DeepPatternEngine._clamp`. -/
def dpClamp (value lower upper : ℚ) : ℚ := pyMax lower (pyMin upper value)

/-- The result dictionary of `DeepPatternEngine.analyze`. -/
structure AnalyzeResult where
  total_packets : ℕ
  short_window : Int
  long_window : Int
  short_count : ℕ
  long_count : ℕ
  spike_ratio : ℚ
  spike_score : ℚ
  diversity_score : ℚ
  composite_risk : ℚ
  deriving DecidableEq, Repr

/-- Embedding of `DeepPatternEngine.analyze` over the current contents of the threat
memory (`self.memory.list_packets()` is passed in as `memPackets`). -/
def analyze (e : DeepPatternEngine) (memPackets : List ThreatPacket)
    (minSeverity : Int) : AnalyzeResult :=
  let packets := memPackets.filter (fun p => p.severity ≥ minSeverity)
  let total := packets.length
  if total = 0 then
    ⟨0, e.short_window, e.long_window, 0, 0, 0, 0, 0, 0⟩
  else
    let long_slice := packets.drop (total - e.long_window.toNat)
    let long_count := long_slice.length
    let short_slice := packets.drop (total - e.short_window.toNat)
    let short_count := short_slice.length
    let long_rate : ℚ := (long_count : ℚ) / (e.long_window : ℚ)
    let short_rate : ℚ := (short_count : ℚ) / (e.short_window : ℚ)
    let spike_ratio :=
      if long_rate = 0 then (if short_rate > 0 then (1 : ℚ) else 0)
      else short_rate / long_rate
    let raw_spike := pyMax 0 (spike_ratio - 1)
    let spike_score := dpClamp (raw_spike / 1) 0 1
    let diversity_score :=
      if short_count = 0 then (0 : ℚ)
      else dpClamp
        (((short_slice.map (fun p => p.threat_type)).dedup.length : ℚ) /
          (short_count : ℚ)) 0 1
    let composite := 0.6 * spike_score + 0.4 * diversity_score
    ⟨total, e.short_window, e.long_window, short_count, long_count,
      spike_ratio, spike_score, diversity_score, dpClamp composite 0 1⟩

/-! Section: `analyze_threats` (`engine.py`) and its most-common-type rule -/

/-- Python builtin `max(items, key=lambda x: x[1])` on a dict's items:
fold keeping the current item unless a strictly greater value appears, so
the FIRST maximal item (in insertion order) wins. -/
def pyMaxSnd : List (String × ℕ) → Option (String × ℕ)
  | [] => none
  | x :: xs => some (xs.foldl (fun acc y => if y.2 > acc.2 then y else acc) x)

/-- Python builtin `max` over the severities list (first maximal wins;
for ints this is the numeric maximum). Unreachable on `[]`. -/
def maxSevOf : List Int → Int
  | [] => 0
  | x :: xs => xs.foldl (fun a b => if b > a then b else a) x

/-- One step of the `type_counts` accumulation:
`type_counts[t] = type_counts.get(t, 0) + 1`. -/
def incCount (m : List (String × ℕ)) (t : String) : List (String × ℕ) :=
  dictSet m t ((dictGet m t).getD 0 + 1)

/-- One summary record of `last_threats`. -/
structure LastThreatView where
  source_layer : String
  threat_type : String
  severity : Int
  timestamp : String
  node_id : Option String
  wallet_id : Option String
  tx_id : Option String
  block_height : Option Int
  deriving DecidableEq, Repr

/-- The result dictionary of `AdaptiveEngine.analyze_threats`. -/
structure AnalyzeThreatsResult where
  total_count : ℕ
  average_severity : ℚ
  max_severity : Int
  most_common_type : Option String
  last_threats : List LastThreatView
  deriving DecidableEq, Repr

/-- Embedding of `AdaptiveEngine.analyze_threats` over the current threat-memory
contents (`last_n = 0` keeps the whole list, as Python `xs[-0:]` does). -/
def analyzeThreats (memPackets : List ThreatPacket) (minSeverity : Int)
    (lastN : ℕ) : AnalyzeThreatsResult :=
  let packets := memPackets.filter (fun p => p.severity ≥ minSeverity)
  if packets.isEmpty then
    ⟨0, 0, 0, none, []⟩
  else
    let total_count := packets.length
    let severities := packets.map (fun p => p.severity)
    let average_severity : ℚ := ((severities.sum : Int) : ℚ) / (total_count : ℚ)
    let type_counts := packets.foldl (fun m p => incCount m p.threat_type) []
    let most_common_type := (pyMaxSnd type_counts).map (fun q => q.1)
    let last := if lastN = 0 then packets else packets.drop (total_count - lastN)
    ⟨total_count, average_severity, maxSevOf severities, most_common_type,
      last.map (fun p =>
        ⟨p.source_layer, p.threat_type, p.severity, p.timestamp,
          p.node_id, p.wallet_id, p.tx_id, p.block_height⟩)⟩

/-- Maximum of a list of naturals (0 on `[]`). -/
def listMaxNat : List ℕ → ℕ
  | [] => 0
  | x :: xs => max x (listMaxNat xs)

/-- Maximum of the counter values of a dict's items. -/
def maxSnd : List (String × ℕ) → ℕ
  | [] => 0
  | p :: ps => max p.2 (maxSnd ps)

/-- The maximal number of occurrences of any single type in `ts`. -/
def maxTypeCount (ts : List String) : ℕ :=
  listMaxNat (ts.map (fun t => ts.count t))

/-- The keys of a dict in insertion order: first occurrences, scanning
left to right past already-seen keys. -/
def firstOccurAux (seen : List String) : List String → List String
  | [] => []
  | t :: ts =>
    if t ∈ seen then firstOccurAux seen ts
    else t :: firstOccurAux (t :: seen) ts

def firstOccur (ts : List String) : List String := firstOccurAux [] ts

/-- The fully-accumulated `type_counts` dict: one entry per distinct type
in first-occurrence order, holding the type's total count. -/
def countsAList (ts : List String) : List (String × ℕ) :=
  (firstOccur ts).map (fun s => (s, ts.count s))

/-- The tie-break the code actually implements (amended C9): the type with
the maximal count whose FIRST OCCURRENCE is earliest — equivalently, the
type of the first packet whose type attains the maximal count. -/
def specMostCommonType (ts : List String) : Option String :=
  ts.find? (fun t => ts.count t = maxTypeCount ts)

/-- The claim's literal reading of the tie-break: scanning left to right
with running counters, the first type whose running count REACHES the
maximal count. Stated from the claim's words, for comparison with the
code. -/
def firstReachAux (m : ℕ) (pre : List String) : List String → Option String
  | [] => none
  | t :: rest =>
    if pre.count t + 1 = m then some t else firstReachAux m (pre ++ [t]) rest

def firstToReachMax (ts : List String) : Option String :=
  firstReachAux (maxTypeCount ts) [] ts

/-- Packet of type `"a"`, for the C9 inputs. -/
def pktA : ThreatPacket := { pktW with threat_type := "a" }

/-- Packet of type `"b"`, for the C9 inputs. -/
def pktB : ThreatPacket := { pktW with threat_type := "b" }

/-! Section: `detect_threat_trends` (`engine.py`) -/

/-- Zero-padded two-digit field of `strftime`. -/
def pad2 (n : ℕ) : String :=
  if n < 10 then "0" ++ toString n else toString n

/-- Zero-padded four-digit year of `strftime`. -/
def pad4 (n : ℕ) : String :=
  if n < 10 then "000" ++ toString n
  else if n < 100 then "00" ++ toString n
  else if n < 1000 then "0" ++ toString n
  else toString n

/-- Embedding of `ts.strftime("%Y-%m-%d")`. -/
def strftimeDay (dt : PyDateTime) : String :=
  pad4 dt.year ++ "-" ++ pad2 dt.month ++ "-" ++ pad2 dt.day

/-- Embedding of `ts.strftime("%Y-%m-%d %H:00")`. -/
def strftimeHour (dt : PyDateTime) : String :=
  strftimeDay dt ++ " " ++ pad2 dt.hour ++ ":00"

/-- Model of Python `sorted` on strings: stable insertion sort by the
lexicographic order. -/
def insertSorted (k : String) : List String → List String
  | [] => [k]
  | x :: xs => if k ≤ x then k :: x :: xs else x :: insertSorted k xs

def sortStrings (l : List String) : List String :=
  l.foldr insertSorted []

/-- One element of the `points` list of `detect_threat_trends`. -/
structure TrendPoint where
  bucket : String
  total : ℕ
  high_severity : ℕ
  deriving DecidableEq, Repr

/-- The result dictionary of `detect_threat_trends`. -/
structure TrendsResult where
  bucket : String
  points : List TrendPoint
  trend_direction : String
  start_total : ℕ
  end_total : ℕ
  deriving DecidableEq, Repr

/-- The keys of every dictionary `detect_threat_trends` returns, exactly
as written in the source's three return statements. -/
def trendsResultKeys : List String :=
  ["bucket", "points", "trend_direction", "start_total", "end_total"]

/-- Embedding of `AdaptiveEngine.detect_threat_trends`: bucket packets by a truncated
timestamp key ("day" → `YYYY-MM-DD`, otherwise `YYYY-MM-DD HH:00`);
packets whose timestamp fails to parse are silently skipped by the
`try/except: continue`. -/
def detectThreatTrends (memPackets : List ThreatPacket) (minSeverity : Int)
    (bucket : String) : TrendsResult :=
  let packets := memPackets.filter (fun p => p.severity ≥ minSeverity)
  if packets.isEmpty then ⟨bucket, [], "unknown", 0, 0⟩
  else
    let acc := packets.foldl
      (fun (acc : List (String × ℕ) × List (String × ℕ)) p =>
        match fromisoformat (removeAllZ p.timestamp) with
        | none => acc
        | some ts =>
          let key := if bucket = "day" then strftimeDay ts else strftimeHour ts
          let counts := dictSet acc.1 key ((dictGet acc.1 key).getD 0 + 1)
          let high :=
            if p.severity ≥ (8 : Int) then
              dictSet acc.2 key ((dictGet acc.2 key).getD 0 + 1)
            else acc.2
          (counts, high))
      ([], [])
    let bucket_counts := acc.1
    let bucket_high := acc.2
    if bucket_counts.isEmpty then ⟨bucket, [], "unknown", 0, 0⟩
    else
      let keys_sorted := sortStrings (bucket_counts.map (fun q => q.1))
      let points := keys_sorted.map (fun k =>
        TrendPoint.mk k ((dictGet bucket_counts k).getD 0)
          ((dictGet bucket_high k).getD 0))
      let start_total := (dictGet bucket_counts (keys_sorted.headD "")).getD 0
      let end_total := (dictGet bucket_counts (keys_sorted.getLastD "")).getD 0
      let trend_direction :=
        if keys_sorted.length < 2 then "unknown"
        else if end_total > start_total then "increasing"
        else if end_total < start_total then "decreasing"
        else "flat"
      ⟨bucket, points, trend_direction, start_total, end_total⟩

/-! Section: C3: invalid-timestamp accounting in `detect_threat_trends` -/

/-- The valid-timestamp packet of the repository's own regression test
`test_v2_invalid_timestamp_accounting.py`. -/
def pktGood : ThreatPacket :=
  { source_layer := "sentinel_ai_v2", threat_type := "TEST_GOOD",
    severity := 5, description := "good packet", node_id := none,
    wallet_id := none, tx_id := none, block_height := none, metadata := [],
    correlation_id := "c1", timestamp := "2026-01-01T12:00:00Z" }

/-- The corrupted-timestamp packet of the same test (its timestamp is
overwritten to `"not-a-timestamp"` after construction). -/
def pktBadTs : ThreatPacket :=
  { source_layer := "sentinel_ai_v2", threat_type := "TEST_BAD",
    severity := 5, description := "bad packet (corrupted timestamp)",
    node_id := none, wallet_id := none, tx_id := none, block_height := none,
    metadata := [], correlation_id := "c2", timestamp := "not-a-timestamp" }

/-! Section: C2: snapshot capture (`memory.py`) -/

/-- The method names the class `AdaptiveState` defines in `models.py`
(besides the dataclass-generated dunder methods): only
`normalised_weights`. In particular there is no `copy` method. -/
def adaptiveStateMethods : List String := ["normalised_weights"]

/-- Embedding of `StateSnapshot` from `memory.py`. -/
structure StateSnapshot where
  timestamp : String
  state : AdaptiveState
  deriving DecidableEq, Repr

/-- Python attribute lookup plus call `state.copy()`: runs only if the
class defines the attribute, otherwise the expression raises
`AttributeError`. (The `ok` branch is dead for `AdaptiveState`, which
defines no `copy`.) -/
def callCopy (s : AdaptiveState) : Except String AdaptiveState :=
  if "copy" ∈ adaptiveStateMethods then Except.ok s
  else Except.error "AttributeError: 'AdaptiveState' object has no attribute 'copy'"

/-- Embedding of `deque(maxlen=500)` append: oldest entries fall out beyond the cap. -/
def dequeAppend (maxlen : ℕ) (l : List StateSnapshot) (x : StateSnapshot) :
    List StateSnapshot :=
  let l2 := l ++ [x]
  l2.drop (l2.length - maxlen)

/-- Embedding of `InMemoryAdaptiveStore.save_snapshot`: builds
`StateSnapshot(timestamp=utcnow(), state=state.copy())` and appends it to
the rolling `snapshots` deque; the `state.copy()` lookup is evaluated
first. -/
def save_snapshot (nowIso : String) (snapshots : List StateSnapshot)
    (state : AdaptiveState) : Except String (List StateSnapshot) :=
  match callCopy state with
  | Except.error e => Except.error e
  | Except.ok s2 => Except.ok (dequeAppend 500 snapshots ⟨nowIso, s2⟩)

/-! Theorems -/

theorem le_pyMax_left (a b : ℚ) : a ≤ pyMax a b := by
  unfold pyMax; split
  · exact le_of_lt (by assumption)
  · exact le_refl a

theorem pyMax_le {a b c : ℚ} (ha : a ≤ c) (hb : b ≤ c) : pyMax a b ≤ c := by
  unfold pyMax; split
  · exact hb
  · exact ha

theorem pyMin_le_left (a b : ℚ) : pyMin a b ≤ a := by
  unfold pyMin; split
  · exact le_of_lt (by assumption)
  · exact le_refl a

/-! Section: C1: post-`apply_learning` bounds -/

/-- C1. For every batch of RiskEvents and every prior state, after
`apply_learning` returns, every entry of `layer_weights` lies in
`[0.1, 5.0]` and `global_threshold` lies in `[0.1, 0.9]`. -/
theorem applyLearning_state_bounds (state : AdaptiveState) (events : List RiskEvent) :
    (∀ p ∈ (applyLearning state events).state.layer_weights,
        (0.1 : ℚ) ≤ p.2 ∧ p.2 ≤ 5.0) ∧
    (0.1 : ℚ) ≤ (applyLearning state events).state.global_threshold ∧
    (applyLearning state events).state.global_threshold ≤ 0.9 := by
  refine ⟨?_, ?_, ?_⟩
  · intro p hp
    simp only [applyLearning, clampState, List.mem_map] at hp
    obtain ⟨q, _, rfl⟩ := hp
    constructor
    · exact le_pyMax_left _ _
    · exact pyMax_le (by norm_num) (pyMin_le_left _ _)
  · exact le_pyMax_left _ _
  · exact pyMax_le (by norm_num) (pyMin_le_left _ _)

/-- Witness for C1: the bounds hold concretely after one TRUE_POSITIVE
event on `stateW` (the post-batch weight of `"sentinel"` is `21/20`). -/
theorem applyLearning_state_bounds_witness :
    ((0.1 : ℚ) ≤ (21 / 20 : ℚ) ∧ (21 / 20 : ℚ) ≤ 5.0) ∧
    (0.1 : ℚ) ≤ (applyLearning stateW [eventTP]).state.global_threshold ∧
    (applyLearning stateW [eventTP]).state.global_threshold ≤ 0.9 := by
  refine ⟨?_, (applyLearning_state_bounds stateW [eventTP]).2⟩
  exact (applyLearning_state_bounds stateW [eventTP]).1 ("sentinel", 21 / 20)
    (by norm_num [applyLearning, applySingleEvent, clampState, dictSet, dictGet,
      dictContains, pyMax, pyMin, stateW, eventTP, LayerAdjustment.init])

/-! Section: Association-list (Python dict) lemmas -/

theorem dictGet_cons {α : Type} (q : String × α) (xs : List (String × α))
    (k : String) :
    dictGet (q :: xs) k = if q.1 = k then some q.2 else dictGet xs k := by
  by_cases hq : q.1 = k <;> simp [dictGet, List.find?_cons, hq]

theorem dictContains_cons {α : Type} (q : String × α) (xs : List (String × α))
    (k : String) :
    dictContains (q :: xs) k = (decide (q.1 = k) || dictContains xs k) := by
  simp [dictContains]

theorem dictContains_of_get {α : Type} {xs : List (String × α)} {k : String}
    {w : α} (h : dictGet xs k = some w) : dictContains xs k = true := by
  induction xs with
  | nil => simp [dictGet] at h
  | cons q xs ih =>
    rw [dictGet_cons] at h
    by_cases hq : q.1 = k
    · simp [dictContains_cons, hq]
    · rw [if_neg hq] at h
      simp [dictContains_cons, ih h]

theorem dictGet_append_not_contains {α : Type} (xs ys : List (String × α))
    (k : String) (h : ¬ dictContains xs k = true) :
    dictGet (xs ++ ys) k = dictGet ys k := by
  induction xs with
  | nil => simp
  | cons q xs ih =>
    simp only [dictContains_cons, Bool.or_eq_true, decide_eq_true_eq,
      not_or] at h
    rw [List.cons_append, dictGet_cons, if_neg h.1]
    exact ih (by simpa using h.2)

theorem dictGet_map_update {α : Type} (xs : List (String × α)) (k : String)
    (v : α) (h : dictContains xs k = true) :
    dictGet (xs.map (fun p => if p.1 = k then (k, v) else p)) k = some v := by
  induction xs with
  | nil => simp [dictContains] at h
  | cons q xs ih =>
    by_cases hq : q.1 = k
    · simp [List.map_cons, hq, dictGet_cons]
    · rw [List.map_cons, if_neg hq, dictGet_cons, if_neg hq]
      simp only [dictContains_cons, Bool.or_eq_true, decide_eq_true_eq] at h
      exact ih (h.resolve_left hq)

theorem dictGet_dictSet_self {α : Type} (xs : List (String × α)) (k : String)
    (v : α) : dictGet (dictSet xs k v) k = some v := by
  unfold dictSet
  by_cases hc : dictContains xs k = true
  · rw [if_pos hc]
    exact dictGet_map_update xs k v hc
  · rw [if_neg hc, dictGet_append_not_contains xs _ k hc]
    simp [dictGet]

theorem dictGet_clampedWeights (xs : List (String × ℚ)) (k : String) :
    dictGet (xs.map (fun p => (p.1, pyMax 0.1 (pyMin 5.0 p.2)))) k =
      (dictGet xs k).map (fun w => pyMax 0.1 (pyMin 5.0 w)) := by
  induction xs with
  | nil => simp [dictGet]
  | cons q xs ih =>
    simp only [List.map_cons, dictGet_cons]
    by_cases hq : q.1 = k
    · simp [hq]
    · rw [if_neg hq, if_neg hq]
      exact ih

theorem dictGet_initAdjustments (xs : List (String × ℚ)) (k : String) :
    dictGet (xs.map (fun p => (p.1, LayerAdjustment.init))) k =
      (dictGet xs k).map (fun _ => LayerAdjustment.init) := by
  induction xs with
  | nil => simp [dictGet]
  | cons q xs ih =>
    simp only [List.map_cons, dictGet_cons]
    by_cases hq : q.1 = k
    · simp [hq]
    · rw [if_neg hq, if_neg hq]
      exact ih

/-! Section: C6: TRUE_POSITIVE and FALSE_POSITIVE on the same layer cancel -/

theorem pyMin_id_of_le {b x : ℚ} (h : x ≤ b) : pyMin b x = x := by
  unfold pyMin; split
  · rfl
  · rename_i hlt; exact le_antisymm (not_lt.mp hlt) h

theorem pyMax_id_of_le {a x : ℚ} (h : a ≤ x) : pyMax a x = x := by
  unfold pyMax; split
  · rfl
  · rename_i hlt; exact le_antisymm h (not_lt.mp hlt)

/-- The end-of-batch clamp is the identity on values already in range. -/
theorem clamp_id_of_range {lo hi x : ℚ} (h1 : lo ≤ x) (h2 : x ≤ hi) :
    pyMax lo (pyMin hi x) = x := by
  rw [pyMin_id_of_le h2, pyMax_id_of_le h1]

/-- Unfolding equation for `_apply_single_event` on a TRUE_POSITIVE event
whose layer is already known. -/
theorem applySingleEvent_tp (st : EngineBatchState) (e : RiskEvent)
    (hf : e.feedback = FeedbackType.TRUE_POSITIVE)
    (hc : dictContains st.state.layer_weights e.layer = true) :
    applySingleEvent st e =
      { state := { st.state with
          layer_weights := dictSet st.state.layer_weights e.layer
            (((dictGet st.state.layer_weights e.layer).getD 0) + 0.05),
          global_threshold := st.state.global_threshold + 0.01 },
        per_layer := dictSet st.per_layer e.layer
          { ((dictGet st.per_layer e.layer).getD LayerAdjustment.init) with
            weight_delta :=
              ((dictGet st.per_layer e.layer).getD LayerAdjustment.init).weight_delta + 0.05,
            threshold_shift :=
              ((dictGet st.per_layer e.layer).getD LayerAdjustment.init).threshold_shift + 0.01 } } := by
  simp [applySingleEvent, hf, hc]

/-- Unfolding equation for `_apply_single_event` on a FALSE_POSITIVE event
whose layer is already known. -/
theorem applySingleEvent_fp (st : EngineBatchState) (e : RiskEvent)
    (hf : e.feedback = FeedbackType.FALSE_POSITIVE)
    (hc : dictContains st.state.layer_weights e.layer = true) :
    applySingleEvent st e =
      { state := { st.state with
          layer_weights := dictSet st.state.layer_weights e.layer
            (((dictGet st.state.layer_weights e.layer).getD 0) - 0.05),
          global_threshold := st.state.global_threshold - 0.01 },
        per_layer := dictSet st.per_layer e.layer
          { ((dictGet st.per_layer e.layer).getD LayerAdjustment.init) with
            weight_delta :=
              ((dictGet st.per_layer e.layer).getD LayerAdjustment.init).weight_delta - 0.05,
            threshold_shift :=
              ((dictGet st.per_layer e.layer).getD LayerAdjustment.init).threshold_shift - 0.01 } } := by
  simp [applySingleEvent, hf, hc]

/-- C6. A batch holding one TRUE_POSITIVE and one FALSE_POSITIVE event on
the same (already-known) layer, in either order, leaves that layer's
weight and the global threshold at their pre-batch values (absent
clamping saturation, i.e. with the pre-batch values inside the clamp
ranges), and the net `LayerAdjustment` for that layer has
`weight_delta = 0` and `threshold_shift = 0`. -/
theorem tp_fp_batch_cancels (s : AdaptiveState) (l : String) (w : ℚ)
    (e1 e2 : RiskEvent)
    (hget : dictGet s.layer_weights l = some w)
    (hw1 : 0.1 ≤ w) (hw2 : w ≤ 5.0)
    (hg1 : 0.1 ≤ s.global_threshold) (hg2 : s.global_threshold ≤ 0.9)
    (hl1 : e1.layer = l) (hl2 : e2.layer = l)
    (hf1 : e1.feedback = FeedbackType.TRUE_POSITIVE)
    (hf2 : e2.feedback = FeedbackType.FALSE_POSITIVE) :
    (dictGet (applyLearning s [e1, e2]).state.layer_weights l = some w ∧
     (applyLearning s [e1, e2]).state.global_threshold = s.global_threshold ∧
     dictGet (applyLearning s [e1, e2]).per_layer l =
       some { weight_delta := 0, threshold_shift := 0 }) ∧
    (dictGet (applyLearning s [e2, e1]).state.layer_weights l = some w ∧
     (applyLearning s [e2, e1]).state.global_threshold = s.global_threshold ∧
     dictGet (applyLearning s [e2, e1]).per_layer l =
       some { weight_delta := 0, threshold_shift := 0 }) := by
  subst hl1
  have hl2' : e2.layer = e1.layer := hl2
  have hc : dictContains s.layer_weights e1.layer = true := dictContains_of_get hget
  have hpl0 : dictGet (s.layer_weights.map (fun p => (p.1, LayerAdjustment.init)))
      e1.layer = some LayerAdjustment.init := by
    rw [dictGet_initAdjustments, hget]; rfl
  constructor
  · simp only [applyLearning, List.foldl_cons, List.foldl_nil]
    rw [applySingleEvent_tp _ e1 hf1 hc]
    rw [applySingleEvent_fp _ e2 hf2
      (by rw [hl2']; exact dictContains_of_get (dictGet_dictSet_self _ _ _))]
    simp only [hl2', hget, hpl0, Option.getD_some, dictGet_dictSet_self,
      clampState, dictGet_clampedWeights]
    refine ⟨?_, ?_, ?_⟩
    · have : w + 0.05 - 0.05 = w := by ring
      rw [this, Option.map_some', clamp_id_of_range hw1 hw2]
    · have : s.global_threshold + 0.01 - 0.01 = s.global_threshold := by ring
      rw [this, clamp_id_of_range hg1 hg2]
    · norm_num [LayerAdjustment.init]
  · simp only [applyLearning, List.foldl_cons, List.foldl_nil]
    rw [applySingleEvent_fp _ e2 hf2 (by rw [hl2']; exact hc)]
    rw [applySingleEvent_tp _ e1 hf1
      (by exact dictContains_of_get (by rw [hl2']; exact dictGet_dictSet_self _ _ _))]
    simp only [hl2', hget, hpl0, Option.getD_some, dictGet_dictSet_self,
      clampState, dictGet_clampedWeights]
    refine ⟨?_, ?_, ?_⟩
    · have : w - 0.05 + 0.05 = w := by ring
      rw [this, Option.map_some', clamp_id_of_range hw1 hw2]
    · have : s.global_threshold - 0.01 + 0.01 = s.global_threshold := by ring
      rw [this, clamp_id_of_range hg1 hg2]
    · norm_num [LayerAdjustment.init]

/-- Witness for C6 at `stateW` with one TRUE_POSITIVE and one
FALSE_POSITIVE event on layer `"sentinel"`. -/
theorem tp_fp_batch_cancels_witness :
    (dictGet (applyLearning stateW [eventTP, eventFP]).state.layer_weights
        "sentinel" = some 1 ∧
     (applyLearning stateW [eventTP, eventFP]).state.global_threshold =
        stateW.global_threshold ∧
     dictGet (applyLearning stateW [eventTP, eventFP]).per_layer "sentinel" =
       some { weight_delta := 0, threshold_shift := 0 }) ∧
    (dictGet (applyLearning stateW [eventFP, eventTP]).state.layer_weights
        "sentinel" = some 1 ∧
     (applyLearning stateW [eventFP, eventTP]).state.global_threshold =
        stateW.global_threshold ∧
     dictGet (applyLearning stateW [eventFP, eventTP]).per_layer "sentinel" =
       some { weight_delta := 0, threshold_shift := 0 }) :=
  tp_fp_batch_cancels stateW "sentinel" 1 eventTP eventFP
    (by norm_num [stateW, dictGet]) (by norm_num) (by norm_num)
    (by norm_num [stateW]) (by norm_num [stateW]) rfl rfl rfl rfl

theorem enforceLimit_eq (m : ThreatMemory) (hcap : 0 < m.max_packets) :
    enforceLimit m =
      { m with packets :=
          m.packets.drop (((m.packets.length : Int) - m.max_packets).toNat) } := by
  unfold enforceLimit
  rw [if_neg (by omega)]
  by_cases h : ((m.packets.length : Int) - m.max_packets) > 0
  · rw [if_pos h]
  · rw [if_neg h]
    have h0 : ((m.packets.length : Int) - m.max_packets).toNat = 0 := by omega
    simp [h0]

theorem enforceLimit_pos (l : List ThreatPacket) (cap : Int) (hcap : 0 < cap) :
    enforceLimit ⟨l, cap⟩ = ⟨l.drop ((l.length : Int) - cap).toNat, cap⟩ :=
  enforceLimit_eq ⟨l, cap⟩ hcap

/-- Folding `add_packet` over a batch from a store within capacity keeps
exactly the capacity-sized suffix of everything ever inserted. -/
theorem foldl_addPacket_drop (cap : Int) (hcap : 0 < cap) :
    ∀ (ps s : List ThreatPacket), (s.length : Int) ≤ cap →
      ps.foldl addPacket ⟨s, cap⟩ =
        ⟨(s ++ ps).drop (((s.length : Int) + ps.length - cap).toNat), cap⟩ := by
  intro ps
  induction ps with
  | nil =>
    intro s hs
    have h0 : ((s.length : Int) + (([] : List ThreatPacket).length : Int) - cap).toNat = 0 := by
      simp only [List.length_nil, Nat.cast_zero]
      omega
    rw [List.foldl_nil, List.append_nil, h0, List.drop_zero]
  | cons p ps ih =>
    intro s hs
    set e : ℕ := ((s.length : Int) + 1 - cap).toNat with he
    have hstep : addPacket ⟨s, cap⟩ p = ⟨(s ++ [p]).drop e, cap⟩ := by
      show enforceLimit ⟨s ++ [p], cap⟩ = _
      rw [enforceLimit_pos _ _ hcap]
      have hl : (((s ++ [p]).length : Int)) = (s.length : Int) + 1 := by
        simp
      rw [hl, ← he]
    have hlen2 : (((s ++ [p]).drop e).length : Int) ≤ cap := by
      simp only [List.length_drop, List.length_append, List.length_singleton]
      omega
    rw [List.foldl_cons, hstep, ih _ hlen2]
    have hle : e ≤ (s ++ [p]).length := by
      simp only [List.length_append, List.length_singleton]
      omega
    have hcomb : (s ++ [p]).drop e ++ ps = (s ++ p :: ps).drop e := by
      have h1 : s ++ p :: ps = (s ++ [p]) ++ ps := by simp
      rw [h1]
      exact (List.drop_append_of_le_length hle).symm
    rw [hcomb, List.drop_drop]
    have hidx : e + ((((s ++ [p]).drop e).length : Int) + (ps.length : Int) - cap).toNat
        = (((s.length : Int) + (((p :: ps).length : ℕ) : Int) - cap)).toNat := by
      simp only [List.length_drop, List.length_append, List.length_singleton,
        List.length_cons, List.length_nil]
      omega
    rw [hidx]

/-- With a non-positive capacity, inserting any batch into an empty store
leaves it empty. -/
theorem foldl_addPacket_nonpos (cap : Int) (hcap : cap ≤ 0) :
    ∀ (qs : List ThreatPacket), qs.foldl addPacket ⟨[], cap⟩ = ⟨[], cap⟩ := by
  intro qs
  induction qs with
  | nil => rfl
  | cons q qs ih =>
    rw [List.foldl_cons]
    have : addPacket ⟨[], cap⟩ q = ⟨[], cap⟩ := by
      unfold addPacket enforceLimit
      rw [if_pos (by exact hcap)]
    rw [this, ih]

/-! Section: C5: FIFO capacity bound -/

/-- C5. Inserting `max_packets + k` packets (`k ≥ 1`, positive capacity)
one by one into an empty store leaves exactly `max_packets` packets: the
most recently inserted ones, in their original relative order; and with a
non-positive capacity the store always holds zero packets. -/
theorem addPacket_fifo_bound (cap cap' : Int) (k : ℕ)
    (ps qs : List ThreatPacket) (hcap : 0 < cap) (hk : 1 ≤ k)
    (hlen : (ps.length : Int) = cap + k) (hcap' : cap' ≤ 0) :
    ((ps.foldl addPacket ⟨[], cap⟩).packets = ps.drop k ∧
     ((ps.drop k).length : Int) = cap) ∧
    (qs.foldl addPacket ⟨[], cap'⟩).packets = [] := by
  refine ⟨⟨?_, ?_⟩, ?_⟩
  · have hnil : ((([] : List ThreatPacket).length : ℕ) : Int) ≤ cap := by
      simp only [List.length_nil, Nat.cast_zero]
      omega
    rw [foldl_addPacket_drop cap hcap ps [] hnil]
    have h0 : (((([] : List ThreatPacket).length : Int)) + ps.length - cap).toNat = k := by
      simp only [List.length_nil, Nat.cast_zero]
      omega
    simp only [List.nil_append, h0]
  · simp only [List.length_drop]
    omega
  · rw [foldl_addPacket_nonpos cap' hcap' qs]

/-- Witness for C5: capacity 2, three inserts keep the last two; capacity
0 keeps nothing. -/
theorem addPacket_fifo_bound_witness :
    (((([pktW, pktW2, pktW].foldl addPacket ⟨[], 2⟩).packets =
        [pktW, pktW2, pktW].drop 1) ∧
      ((([pktW, pktW2, pktW].drop 1).length : Int) = 2)) ∧
     ([pktW, pktW2].foldl addPacket ⟨[], 0⟩).packets = []) :=
  addPacket_fifo_bound 2 0 1 [pktW, pktW2, pktW] [pktW, pktW2]
    (by norm_num) (le_refl 1) (by norm_num) (le_refl 0)

/-- C10. Mutating the list returned by `list_packets` (any in-place
transformation `mutate` of the returned cell) leaves the store's internal
packet sequence unchanged, and a subsequent `list_packets` call still
returns the same packets in the same order as before the mutation. -/
theorem listPackets_fresh_copy (h : Heap) (store : ℕ)
    (mutate : List ThreatPacket → List ThreatPacket)
    (hs : store < h.cells.length) :
    (heapRead (heapWrite (listPacketsRef h store).1 (listPacketsRef h store).2
        (mutate (heapRead (listPacketsRef h store).1 (listPacketsRef h store).2)))
        store = heapRead h store) ∧
    (heapRead
        (listPacketsRef (heapWrite (listPacketsRef h store).1
          (listPacketsRef h store).2
          (mutate (heapRead (listPacketsRef h store).1 (listPacketsRef h store).2))) store).1
        (listPacketsRef (heapWrite (listPacketsRef h store).1
          (listPacketsRef h store).2
          (mutate (heapRead (listPacketsRef h store).1 (listPacketsRef h store).2))) store).2
      = heapRead h store) := by
  have hfresh : (listPacketsRef h store).2 = h.cells.length := rfl
  have hcells : (listPacketsRef h store).1.cells = h.cells ++ [heapRead h store] := rfl
  have hread_store : ∀ v, heapRead (heapWrite (listPacketsRef h store).1
      (listPacketsRef h store).2 v) store = heapRead h store := by
    intro v
    unfold heapRead heapWrite
    rw [hfresh, hcells]
    rw [List.getD_eq_getElem?_getD, List.getElem?_set_ne (by omega)]
    rw [List.getElem?_append_left hs, ← List.getD_eq_getElem?_getD]
  refine ⟨hread_store _, ?_⟩
  have halloc : ∀ (h2 : Heap),
      heapRead (listPacketsRef h2 store).1 (listPacketsRef h2 store).2
        = heapRead h2 store := by
    intro h2
    show heapRead ⟨h2.cells ++ [heapRead h2 store]⟩ h2.cells.length = _
    unfold heapRead
    rw [List.getD_eq_getElem?_getD]
    rw [List.getElem?_append_right (le_refl _)]
    simp
  rw [halloc, hread_store]

/-- Witness for C10: a one-cell heap holding `[pktW]`; the returned copy
is cleared in place, yet the store still reads `[pktW]`. -/
theorem listPackets_fresh_copy_witness :
    (heapRead (heapWrite (listPacketsRef ⟨[[pktW]]⟩ 0).1
        (listPacketsRef ⟨[[pktW]]⟩ 0).2
        ((fun _ => []) (heapRead (listPacketsRef ⟨[[pktW]]⟩ 0).1
          (listPacketsRef ⟨[[pktW]]⟩ 0).2))) 0 = heapRead ⟨[[pktW]]⟩ 0) ∧
    (heapRead
        (listPacketsRef (heapWrite (listPacketsRef ⟨[[pktW]]⟩ 0).1
          (listPacketsRef ⟨[[pktW]]⟩ 0).2
          ((fun _ => []) (heapRead (listPacketsRef ⟨[[pktW]]⟩ 0).1
            (listPacketsRef ⟨[[pktW]]⟩ 0).2))) 0).1
        (listPacketsRef (heapWrite (listPacketsRef ⟨[[pktW]]⟩ 0).1
          (listPacketsRef ⟨[[pktW]]⟩ 0).2
          ((fun _ => []) (heapRead (listPacketsRef ⟨[[pktW]]⟩ 0).1
            (listPacketsRef ⟨[[pktW]]⟩ 0).2))) 0).2
      = heapRead ⟨[[pktW]]⟩ 0) :=
  listPackets_fresh_copy ⟨[[pktW]]⟩ 0 (fun _ => []) (by norm_num)

/-! Section: C8: fail-fast validation at construction -/

theorem corr_msg_ne_ts_msg (ts : String) :
    ("correlation_id must be a non-empty string when provided" : String) ≠
      "Invalid timestamp format: " ++ ts := by
  intro h
  have h2 := congrArg (fun s => s.data.head?) h
  simp only [String.data_append, List.head?_append] at h2
  have hL : ("correlation_id must be a non-empty string when provided" :
      String).data.head? = some 'c' := by decide
  have hR : ("Invalid timestamp format: " : String).data.head? = some 'I' := by
    decide
  rw [hL, hR] at h2
  simp at h2

/-- C8 (amended: the code removes every `Z` in the provided timestamp, not
only trailing ones, before parsing). A non-empty timestamp makes
construction fail with the timestamp error exactly when the string with
all `Z` characters removed is unparsable; an empty timestamp never causes
a failure and is auto-filled with the current time; a provided
correlation_id that is blank after stripping raises, while an empty one is
auto-generated. -/
theorem threatPacket_validation (nowIso uuid4 : String) (r : RawThreatPacket) :
    (r.timestamp ≠ "" →
      (postInit nowIso uuid4 r =
          Except.error ("Invalid timestamp format: " ++ r.timestamp) ↔
        fromisoformat (removeAllZ r.timestamp) = none)) ∧
    (r.timestamp = "" →
      (∀ e, postInit nowIso uuid4 r = Except.error e →
          e = "correlation_id must be a non-empty string when provided") ∧
      (∀ p, postInit nowIso uuid4 r = Except.ok p →
          p.timestamp = nowIso ++ "Z")) ∧
    (r.correlation_id ≠ "" → pyStrip r.correlation_id = "" →
      (r.timestamp = "" ∨ (fromisoformat (removeAllZ r.timestamp)).isSome) →
      postInit nowIso uuid4 r =
        Except.error "correlation_id must be a non-empty string when provided") ∧
    (r.correlation_id = "" →
      ∀ p, postInit nowIso uuid4 r = Except.ok p →
        p.correlation_id = uuid4) := by
  refine ⟨?_, ?_, ?_, ?_⟩
  · intro hts
    unfold postInit
    rw [if_neg hts]
    cases hparse : fromisoformat (removeAllZ r.timestamp) with
    | none => simp [hparse]
    | some dt =>
      simp only [hparse, Option.isSome_some, if_true]
      constructor
      · intro h
        by_cases hc1 : r.correlation_id = ""
        · simp [hc1] at h
        · by_cases hc2 : pyStrip r.correlation_id = ""
          · simp only [if_neg hc1, if_pos hc2] at h
            exact absurd (Except.error.inj h) (corr_msg_ne_ts_msg r.timestamp)
          · simp [hc1, hc2] at h
      · intro h
        exact absurd h (by simp)
  · intro hts
    unfold postInit
    rw [if_pos hts]
    constructor
    · intro e he
      by_cases hc1 : r.correlation_id = ""
      · simp [hc1] at he
      · by_cases hc2 : pyStrip r.correlation_id = ""
        · simp only [if_neg hc1, if_pos hc2] at he
          exact (Except.error.inj he).symm
        · simp [hc1, hc2] at he
    · intro p hp
      by_cases hc1 : r.correlation_id = ""
      · simp only [if_pos hc1] at hp
        rw [← Except.ok.inj hp]
      · by_cases hc2 : pyStrip r.correlation_id = ""
        · simp [hc1, hc2] at hp
        · simp only [if_neg hc1, if_neg hc2] at hp
          rw [← Except.ok.inj hp]
  · intro hc1 hc2 hts
    unfold postInit
    cases hts with
    | inl h => simp [h, hc1, hc2]
    | inr h =>
      by_cases h0 : r.timestamp = ""
      · simp [h0, hc1, hc2]
      · simp [h0, h, hc1, hc2]
  · intro hc1 p hp
    unfold postInit at hp
    by_cases h0 : r.timestamp = ""
    · simp only [if_pos h0, hc1, if_pos rfl] at hp
      rw [← Except.ok.inj hp]
    · by_cases hparse : (fromisoformat (removeAllZ r.timestamp)).isSome
      · simp only [if_neg h0, hparse, if_true, hc1, if_pos rfl] at hp
        rw [← Except.ok.inj hp]
      · simp [h0, hparse] at hp

/-- Witness for C8: on `rawBad`, construction fails with the timestamp
error. -/
theorem threatPacket_validation_witness :
    postInit "2026-01-01T00:00:00" "u1" rawBad =
      Except.error ("Invalid timestamp format: " ++ "not-a-timestamp") :=
  ((threatPacket_validation "2026-01-01T00:00:00" "u1" rawBad).1
    (by decide)).mpr (by decide)

/-- Counterexample to C8 as stated: `"2020Z-01-01"` has no trailing `Z`,
so with trailing `Z` stripped it stays unparsable, yet construction
SUCCEEDS, because the code removes every `Z` (yielding the parseable
`"2020-01-01"`). -/
theorem threatPacket_trailingZ_counterexample :
    stripTrailingZ "2020Z-01-01" = "2020Z-01-01" ∧
    fromisoformat (stripTrailingZ "2020Z-01-01") = none ∧
    removeAllZ "2020Z-01-01" = "2020-01-01" ∧
    postInit "2026-01-01T00:00:00" "u1" rawInteriorZ =
      Except.ok
        { source_layer := "s", threat_type := "t", severity := 5,
          description := "d", node_id := none, wallet_id := none,
          tx_id := none, block_height := none, metadata := [],
          correlation_id := "cid", timestamp := "2020Z-01-01" } := by
  refine ⟨by decide, by decide, by decide, ?_⟩
  rfl

/-- Reconstruction from `to_dict` output is the identity on valid
packets. -/
theorem postInit_toDict_id (nowIso uuid4 : String) (p : ThreatPacket)
    (h : ValidPacket p) :
    postInit nowIso uuid4 (ThreatPacket.toDict p) = Except.ok p := by
  obtain ⟨h1, h2, h3, h4, h5, h6⟩ := h
  have hn1 : ¬ (p.severity < 0) := by omega
  have hn2 : ¬ (p.severity > 10) := by omega
  simp [postInit, ThreatPacket.toDict, h1, h2, h3, h4, hn1, hn2]

theorem filterMap_postInit_id (nowIso uuid4 : String) :
    ∀ (ps : List ThreatPacket), (∀ p ∈ ps, ValidPacket p) →
      ps.filterMap
        (fun p => (postInit nowIso uuid4 (ThreatPacket.toDict p)).toOption) = ps := by
  intro ps
  induction ps with
  | nil => intro _; rfl
  | cons q qs ih =>
    intro h
    have hq : (postInit nowIso uuid4 (ThreatPacket.toDict q)).toOption = some q := by
      rw [postInit_toDict_id nowIso uuid4 q (h q (List.mem_cons_self q qs))]
      rfl
    rw [List.filterMap_cons, hq]
    exact congrArg (fun t => q :: t)
      (ih (fun p hp => h p (List.mem_cons_of_mem q hp)))

theorem enforceLimit_noop (l : List ThreatPacket) (cap : Int)
    (h : (l.length : Int) ≤ cap) : enforceLimit ⟨l, cap⟩ = ⟨l, cap⟩ := by
  by_cases hc : 0 < cap
  · rw [enforceLimit_pos l cap hc]
    have h0 : ((l.length : Int) - cap).toNat = 0 := by omega
    rw [h0, List.drop_zero]
  · have hc0 : cap ≤ 0 := by omega
    have hl : l = [] := by
      cases l with
      | nil => rfl
      | cons x xs => simp at h; omega
    subst hl
    simp [enforceLimit, hc0]

/-- C4. Round-trip of persistence: saving the packets of a store and
loading the array into a fresh store of equal capacity reproduces the
same packets, field for field and in the same order. -/
theorem save_load_roundtrip (cap : Int) (ps : List ThreatPacket)
    (nowIso uuid4 : String) (hval : ∀ p ∈ ps, ValidPacket p)
    (hlen : (ps.length : Int) ≤ cap) :
    loadData cap nowIso uuid4 (saveData ⟨ps, cap⟩) = ⟨ps, cap⟩ := by
  unfold loadData saveData
  rw [List.filterMap_map]
  have hcomp : ((fun d => (postInit nowIso uuid4 d).toOption) ∘
      ThreatPacket.toDict) =
      (fun p => (postInit nowIso uuid4 (ThreatPacket.toDict p)).toOption) := rfl
  rw [hcomp, filterMap_postInit_id nowIso uuid4 ps hval]
  exact enforceLimit_noop ps cap hlen

/-- Witness for C4: the two sample packets round-trip through a capacity-2
store. -/
theorem save_load_roundtrip_witness :
    loadData 2 "2026-01-01T00:00:00" "u1" (saveData ⟨[pktW, pktW2], 2⟩) =
      ⟨[pktW, pktW2], 2⟩ :=
  save_load_roundtrip 2 [pktW, pktW2] "2026-01-01T00:00:00" "u1"
    (by decide) (by decide)

/-! Section: C7: spike-rate formulas of `analyze` -/

/-- C7. With at least one qualifying packet, `analyze` computes
`long_rate = |long_slice| / long_window` and
`short_rate = |short_slice| / short_window` over the capacity-bounded
suffixes (`|slice| = min(total, window)`),
`spike_ratio = short_rate / long_rate` with the stated zero-rate
exceptions, and `spike_score = clamp(max(0, spike_ratio − 1), 0, 1)`. -/
theorem analyze_spike_formulas (sw lw minSev : Int)
    (mem : List ThreatPacket)
    (hne : mem.filter (fun p => p.severity ≥ minSev) ≠ []) :
    (analyze (mkDeepPatternEngine sw lw) mem minSev).long_count =
      min (mem.filter (fun p => p.severity ≥ minSev)).length
        (mkDeepPatternEngine sw lw).long_window.toNat ∧
    (analyze (mkDeepPatternEngine sw lw) mem minSev).short_count =
      min (mem.filter (fun p => p.severity ≥ minSev)).length
        (mkDeepPatternEngine sw lw).short_window.toNat ∧
    (analyze (mkDeepPatternEngine sw lw) mem minSev).spike_ratio =
      (if (((min (mem.filter (fun p => p.severity ≥ minSev)).length
              (mkDeepPatternEngine sw lw).long_window.toNat : ℕ) : ℚ) /
            ((mkDeepPatternEngine sw lw).long_window : ℚ)) = 0 then
        (if (((min (mem.filter (fun p => p.severity ≥ minSev)).length
              (mkDeepPatternEngine sw lw).short_window.toNat : ℕ) : ℚ) /
            ((mkDeepPatternEngine sw lw).short_window : ℚ)) > 0
         then (1 : ℚ) else 0)
       else
        (((min (mem.filter (fun p => p.severity ≥ minSev)).length
              (mkDeepPatternEngine sw lw).short_window.toNat : ℕ) : ℚ) /
            ((mkDeepPatternEngine sw lw).short_window : ℚ)) /
        (((min (mem.filter (fun p => p.severity ≥ minSev)).length
              (mkDeepPatternEngine sw lw).long_window.toNat : ℕ) : ℚ) /
            ((mkDeepPatternEngine sw lw).long_window : ℚ))) ∧
    (analyze (mkDeepPatternEngine sw lw) mem minSev).spike_score =
      pyMax 0 (pyMin 1
        (pyMax 0 ((analyze (mkDeepPatternEngine sw lw) mem minSev).spike_ratio - 1))) := by
  set e := mkDeepPatternEngine sw lw with hedef
  set ps := mem.filter (fun p => p.severity ≥ minSev) with hps
  have htot : ps.length ≠ 0 := fun h => hne (List.length_eq_zero.mp h)
  have hlc : (ps.drop (ps.length - e.long_window.toNat)).length =
      min ps.length e.long_window.toNat := by
    rw [List.length_drop]; omega
  have hsc : (ps.drop (ps.length - e.short_window.toNat)).length =
      min ps.length e.short_window.toNat := by
    rw [List.length_drop]; omega
  unfold analyze
  rw [← hps, if_neg htot]
  refine ⟨?_, ?_, ?_, ?_⟩ <;>
    simp only [hlc, hsc, dpClamp, div_one]

/-- Witness for C7 on a one-packet memory with windows 1 and 2:
`spike_ratio = (1/1) / (1/2) = 2` and `spike_score` saturates at 1. -/
theorem analyze_spike_formulas_witness :
    (analyze (mkDeepPatternEngine 1 2) [pktW] 0).long_count =
      min ([pktW].filter (fun p => p.severity ≥ 0)).length
        (mkDeepPatternEngine 1 2).long_window.toNat ∧
    (analyze (mkDeepPatternEngine 1 2) [pktW] 0).short_count =
      min ([pktW].filter (fun p => p.severity ≥ 0)).length
        (mkDeepPatternEngine 1 2).short_window.toNat ∧
    (analyze (mkDeepPatternEngine 1 2) [pktW] 0).spike_ratio =
      (if (((min ([pktW].filter (fun p => p.severity ≥ 0)).length
              (mkDeepPatternEngine 1 2).long_window.toNat : ℕ) : ℚ) /
            ((mkDeepPatternEngine 1 2).long_window : ℚ)) = 0 then
        (if (((min ([pktW].filter (fun p => p.severity ≥ 0)).length
              (mkDeepPatternEngine 1 2).short_window.toNat : ℕ) : ℚ) /
            ((mkDeepPatternEngine 1 2).short_window : ℚ)) > 0
         then (1 : ℚ) else 0)
       else
        (((min ([pktW].filter (fun p => p.severity ≥ 0)).length
              (mkDeepPatternEngine 1 2).short_window.toNat : ℕ) : ℚ) /
            ((mkDeepPatternEngine 1 2).short_window : ℚ)) /
        (((min ([pktW].filter (fun p => p.severity ≥ 0)).length
              (mkDeepPatternEngine 1 2).long_window.toNat : ℕ) : ℚ) /
            ((mkDeepPatternEngine 1 2).long_window : ℚ))) ∧
    (analyze (mkDeepPatternEngine 1 2) [pktW] 0).spike_score =
      pyMax 0 (pyMin 1
        (pyMax 0 ((analyze (mkDeepPatternEngine 1 2) [pktW] 0).spike_ratio - 1))) :=
  analyze_spike_formulas 1 2 0 [pktW] (by decide)

theorem dictGet_keyMap {α : Type} (l : List String) (g : String → α)
    (t : String) :
    dictGet (l.map (fun s => (s, g s))) t =
      if t ∈ l then some (g t) else none := by
  induction l with
  | nil => simp [dictGet]
  | cons s l ih =>
    simp only [List.map_cons, dictGet_cons]
    by_cases hs : s = t
    · subst hs; simp
    · rw [if_neg hs, ih]
      by_cases hm : t ∈ l
      · simp [hm, hs]
      · simp [hm, Ne.symm hs]

theorem dictContains_keyMap {α : Type} (l : List String) (g : String → α)
    (t : String) :
    dictContains (l.map (fun s => (s, g s))) t = decide (t ∈ l) := by
  induction l with
  | nil => simp [dictContains]
  | cons s l ih =>
    simp only [List.map_cons, dictContains_cons, ih]
    by_cases hs : s = t
    · subst hs; simp
    · simp [hs, Ne.symm hs]

theorem mem_firstOccurAux (s : String) :
    ∀ (l seen : List String),
      (s ∈ firstOccurAux seen l ↔ (s ∈ l ∧ s ∉ seen)) := by
  intro l
  induction l with
  | nil => intro seen; simp [firstOccurAux]
  | cons t ts ih =>
    intro seen
    unfold firstOccurAux
    by_cases ht : t ∈ seen
    · rw [if_pos ht, ih]
      constructor
      · rintro ⟨h1, h2⟩
        exact ⟨List.mem_cons_of_mem t h1, h2⟩
      · rintro ⟨h1, h2⟩
        rcases List.mem_cons.mp h1 with h | h
        · subst h; exact absurd ht h2
        · exact ⟨h, h2⟩
    · rw [if_neg ht]
      simp only [List.mem_cons, ih]
      constructor
      · rintro (h | ⟨h1, h2⟩)
        · subst h; exact ⟨Or.inl rfl, ht⟩
        · exact ⟨Or.inr h1, fun hs => h2 (Or.inr hs)⟩
      · rintro ⟨h1 | h1, h2⟩
        · exact Or.inl h1
        · by_cases hst : s = t
          · exact Or.inl hst
          · exact Or.inr ⟨h1, fun hs => hs.elim hst h2⟩

theorem firstOccurAux_append (t : String) :
    ∀ (l seen : List String),
      firstOccurAux seen (l ++ [t]) =
        firstOccurAux seen l ++ (if t ∈ seen ∨ t ∈ l then [] else [t]) := by
  intro l
  induction l with
  | nil =>
    intro seen
    unfold firstOccurAux
    by_cases ht : t ∈ seen
    · simp [firstOccurAux, ht]
    · simp [firstOccurAux, ht]
  | cons u ts ih =>
    intro seen
    rw [List.cons_append]
    unfold firstOccurAux
    by_cases hu : u ∈ seen
    · rw [if_pos hu, if_pos hu, ih]
      by_cases h1 : t ∈ seen ∨ t ∈ ts
      · rw [if_pos h1, if_pos ?side]
        case side =>
          rcases h1 with h | h
          · exact Or.inl h
          · exact Or.inr (List.mem_cons_of_mem u h)
      · rw [if_neg h1, if_neg ?side2]
        case side2 =>
          rintro (h | h)
          · exact h1 (Or.inl h)
          · rcases List.mem_cons.mp h with h | h
            · subst h; exact h1 (Or.inl hu)
            · exact h1 (Or.inr h)
    · rw [if_neg hu, if_neg hu, ih, List.cons_append]
      by_cases h1 : t ∈ u :: seen ∨ t ∈ ts
      · rw [if_pos h1, if_pos ?side3]
        case side3 =>
          rcases h1 with h | h
          · rcases List.mem_cons.mp h with h | h
            · subst h; exact Or.inr (List.mem_cons_self t ts)
            · exact Or.inl h
          · exact Or.inr (List.mem_cons_of_mem u h)
      · rw [if_neg h1, if_neg ?side4]
        case side4 =>
          rintro (h | h)
          · exact h1 (Or.inl (List.mem_cons_of_mem u h))
          · rcases List.mem_cons.mp h with h | h
            · subst h; exact h1 (Or.inl (List.mem_cons_self t seen))
            · exact h1 (Or.inr h)

theorem find?_firstOccurAux (q : String → Bool) :
    ∀ (l seen : List String), (∀ s ∈ seen, q s = false) →
      (firstOccurAux seen l).find? q = l.find? q := by
  intro l
  induction l with
  | nil => intro seen _; rfl
  | cons t ts ih =>
    intro seen hseen
    unfold firstOccurAux
    by_cases ht : t ∈ seen
    · rw [if_pos ht, ih seen hseen, List.find?_cons, hseen t ht]
    · rw [if_neg ht, List.find?_cons, List.find?_cons]
      cases hq : q t with
      | true => rfl
      | false =>
        exact ih (t :: seen) (fun s hs =>
          (List.mem_cons.mp hs).elim (fun h => h ▸ hq) (hseen s))

theorem mem_firstOccur (s : String) (ts : List String) :
    s ∈ firstOccur ts ↔ s ∈ ts := by
  unfold firstOccur
  rw [mem_firstOccurAux]
  simp

theorem incCount_counts (pre : List String) (t : String) :
    incCount (countsAList pre) t = countsAList (pre ++ [t]) := by
  unfold incCount countsAList
  rw [dictGet_keyMap]
  have hfa : firstOccur (pre ++ [t]) =
      firstOccur pre ++ (if t ∈ pre then [] else [t]) := by
    unfold firstOccur
    rw [firstOccurAux_append]
    simp
  by_cases hm : t ∈ pre
  · have hmF : t ∈ firstOccur pre := (mem_firstOccur t pre).mpr hm
    rw [if_pos hmF]
    simp only [Option.getD_some]
    unfold dictSet
    rw [dictContains_keyMap, if_pos (by simp [hmF])]
    rw [List.map_map, hfa, if_pos hm, List.append_nil]
    apply List.map_congr_left
    intro s hsF
    simp only [Function.comp]
    by_cases hst : s = t
    · subst hst
      rw [if_pos rfl]
      have : (pre ++ [s]).count s = pre.count s + 1 := by
        rw [List.count_append]
        simp
      rw [this]
    · rw [if_neg hst]
      have : (pre ++ [t]).count s = pre.count s := by
        rw [List.count_append]
        have h1 : [t].count s = 0 := by
          rw [List.count_eq_zero]
          simp [hst]
        rw [h1]
        simp
      rw [this]
  · have hmF : t ∉ firstOccur pre := fun h => hm ((mem_firstOccur t pre).mp h)
    rw [if_neg hmF]
    simp only [Option.getD_none]
    unfold dictSet
    rw [dictContains_keyMap, if_neg (by simp [hmF])]
    rw [hfa, if_neg hm, List.map_append]
    congr 1
    · apply List.map_congr_left
      intro s hsF
      have hst : s ≠ t := fun h => hm (h ▸ (mem_firstOccur s pre).mp hsF)
      have : (pre ++ [t]).count s = pre.count s := by
        rw [List.count_append]
        have h0 : [t].count s = 0 := by
          rw [List.count_eq_zero]
          simp [hst]
        rw [h0]
        simp
      rw [this]
    · simp only [List.map_cons, List.map_nil]
      have : (pre ++ [t]).count t = 1 := by
        rw [List.count_append, List.count_eq_zero.mpr hm]
        simp
      rw [this]

theorem foldl_incCount (l : List String) :
    ∀ pre, l.foldl incCount (countsAList pre) = countsAList (pre ++ l) := by
  induction l with
  | nil => intro pre; simp
  | cons t ts ih =>
    intro pre
    rw [List.foldl_cons, incCount_counts, ih (pre ++ [t])]
    congr 1
    simp

theorem foldl_incCount_nil (ts : List String) :
    ts.foldl incCount [] = countsAList ts := by
  have h := foldl_incCount ts []
  simpa using h

theorem maxSnd_keyMap (l : List String) (g : String → ℕ) :
    maxSnd (l.map (fun s => (s, g s))) = listMaxNat (l.map g) := by
  induction l with
  | nil => rfl
  | cons s l ih => simp [maxSnd, listMaxNat, ih]

theorem listMaxNat_le_iff (l : List ℕ) (n : ℕ) :
    listMaxNat l ≤ n ↔ ∀ x ∈ l, x ≤ n := by
  induction l with
  | nil => simp [listMaxNat]
  | cons x xs ih => simp [listMaxNat, Nat.max_le, ih]

theorem listMax_mem_congr (g : String → ℕ) (l₁ l₂ : List String)
    (h : ∀ s, s ∈ l₁ ↔ s ∈ l₂) :
    listMaxNat (l₁.map g) = listMaxNat (l₂.map g) := by
  apply le_antisymm
  · rw [listMaxNat_le_iff]
    intro x hx
    obtain ⟨s, hs, rfl⟩ := List.mem_map.mp hx
    exact (listMaxNat_le_iff (l₂.map g) _).mp (le_refl _) (g s)
      (List.mem_map.mpr ⟨s, (h s).mp hs, rfl⟩)
  · rw [listMaxNat_le_iff]
    intro x hx
    obtain ⟨s, hs, rfl⟩ := List.mem_map.mp hx
    exact (listMaxNat_le_iff (l₁.map g) _).mp (le_refl _) (g s)
      (List.mem_map.mpr ⟨s, (h s).mpr hs, rfl⟩)

theorem find?_keyMap {α : Type} (l : List String) (g : String → α)
    (q : α → Bool) :
    ((l.map (fun s => (s, g s))).find? (fun p => q p.2)).map (fun p => p.1) =
      l.find? (fun s => q (g s)) := by
  induction l with
  | nil => rfl
  | cons s l ih =>
    rw [List.map_cons]
    cases hq : q (g s) with
    | true =>
      have h1 : ((s, g s) :: l.map (fun u => (u, g u))).find?
          (fun p => q p.2) = some (s, g s) :=
        List.find?_cons_of_pos _ (by simpa using hq)
      have h2 : (s :: l).find? (fun u => q (g u)) = some s :=
        List.find?_cons_of_pos _ (by simpa using hq)
      rw [h1, h2]
      rfl
    | false =>
      have h1 : ((s, g s) :: l.map (fun u => (u, g u))).find?
          (fun p => q p.2) =
          (l.map (fun u => (u, g u))).find? (fun p => q p.2) :=
        List.find?_cons_of_neg _ (by simpa using hq)
      have h2 : (s :: l).find? (fun u => q (g u)) =
          l.find? (fun u => q (g u)) :=
        List.find?_cons_of_neg _ (by simpa using hq)
      rw [h1, h2, ih]

theorem pyMaxSnd_eq_find :
    ∀ (xs : List (String × ℕ)) (x : String × ℕ),
      pyMaxSnd (x :: xs) =
        (x :: xs).find? (fun p => p.2 = maxSnd (x :: xs)) := by
  intro xs
  induction xs with
  | nil =>
    intro x
    have hM : maxSnd [x] = x.2 := by
      show max x.2 (maxSnd []) = x.2
      show max x.2 0 = x.2
      exact Nat.max_zero x.2
    simp [pyMaxSnd, hM, List.find?_cons]
  | cons y ys ih =>
    intro x
    have hfold : pyMaxSnd (x :: y :: ys) =
        pyMaxSnd ((if y.2 > x.2 then y else x) :: ys) := by
      simp [pyMaxSnd, List.foldl_cons]
    rw [hfold, ih]
    by_cases h : y.2 > x.2
    · rw [if_pos h]
      have hM : maxSnd (x :: y :: ys) = maxSnd (y :: ys) := by
        show max x.2 (maxSnd (y :: ys)) = maxSnd (y :: ys)
        exact Nat.max_eq_right (le_trans (Nat.le_of_lt h)
          (by show y.2 ≤ max y.2 (maxSnd ys); exact Nat.le_max_left _ _))
      rw [hM, List.find?_cons (a := x)]
      have hx : ¬ (x.2 = maxSnd (y :: ys)) := by
        have hy2 : y.2 ≤ maxSnd (y :: ys) := by
          show y.2 ≤ max y.2 (maxSnd ys)
          exact Nat.le_max_left _ _
        omega
      simp [hx]
    · rw [if_neg h]
      have hy : y.2 ≤ x.2 := Nat.le_of_not_lt h
      have hM : maxSnd (x :: y :: ys) = maxSnd (x :: ys) := by
        show max x.2 (max y.2 (maxSnd ys)) = max x.2 (maxSnd ys)
        rw [← Nat.max_assoc, Nat.max_eq_left hy]
      rw [hM, List.find?_cons (a := x), List.find?_cons (a := x)]
      by_cases hx : x.2 = maxSnd (x :: ys)
      · simp [hx]
      · have hxle : x.2 ≤ maxSnd (x :: ys) := by
          show x.2 ≤ max x.2 (maxSnd ys)
          exact Nat.le_max_left _ _
        have hy2 : ¬ (y.2 = maxSnd (x :: ys)) := by omega
        simp [hx, hy2, List.find?_cons]

/-- C9 (amended: among the types with the maximal count, the winner is
the one whose FIRST OCCURRENCE is earliest in the left-to-right scan —
equivalently the type of the first packet whose type attains the maximal
count — not the type whose running count first reaches the maximum). -/
theorem analyzeThreats_most_common_stable (mem : List ThreatPacket)
    (minSev : Int) (lastN : ℕ)
    (hne : mem.filter (fun p => p.severity ≥ minSev) ≠ []) :
    (analyzeThreats mem minSev lastN).most_common_type =
      specMostCommonType
        ((mem.filter (fun p => p.severity ≥ minSev)).map
          (fun p => p.threat_type)) := by
  have hempty : (mem.filter (fun p => p.severity ≥ minSev)).isEmpty = false := by
    cases h : mem.filter (fun p => p.severity ≥ minSev) with
    | nil => exact absurd h hne
    | cons a as => rfl
  simp only [analyzeThreats, hempty, Bool.false_eq_true, if_false]
  set packets := mem.filter (fun p => p.severity ≥ minSev) with hpk
  set ts := packets.map (fun p => p.threat_type) with hts
  have hfold : packets.foldl (fun m p => incCount m p.threat_type) [] =
      countsAList ts :=
    (List.foldl_map (fun p => p.threat_type) incCount packets []).symm.trans
      (foldl_incCount_nil ts)
  rw [hfold]
  have hts_ne : ts ≠ [] := by
    rw [hts]
    intro h
    exact hne (by simpa using h)
  obtain ⟨c, cs, hcs⟩ : ∃ c cs, countsAList ts = c :: cs := by
    cases hC : countsAList ts with
    | cons c cs => exact ⟨c, cs, rfl⟩
    | nil =>
      exfalso
      cases hts2 : ts with
      | nil => exact hts_ne hts2
      | cons a as =>
        have ha : a ∈ firstOccur ts := (mem_firstOccur a ts).mpr
          (by rw [hts2]; exact List.mem_cons_self a as)
        have hmem : (a, ts.count a) ∈ countsAList ts :=
          List.mem_map.mpr ⟨a, ha, rfl⟩
        rw [hC] at hmem
        exact List.not_mem_nil _ hmem
  rw [hcs, pyMaxSnd_eq_find cs c, ← hcs]
  have hqM : maxSnd (countsAList ts) = maxTypeCount ts := by
    unfold countsAList
    rw [maxSnd_keyMap]
    unfold maxTypeCount
    exact listMax_mem_congr _ _ _ (fun s => mem_firstOccur s ts)
  rw [hqM]
  exact (find?_keyMap (firstOccur ts) (fun s => ts.count s)
      (fun n => decide (n = maxTypeCount ts))).trans
    (find?_firstOccurAux _ ts [] (fun s hs => absurd hs (List.not_mem_nil s)))

/-- Counterexample to C9 as stated: on the type sequence `a, b, b, a`
(counts 2 and 2), type `b` is the first to REACH the maximal count 2
during the scan (at the third packet), but the code returns `a` (the
maximal-count type whose first occurrence is earliest). -/
theorem most_common_type_counterexample :
    (analyzeThreats [pktA, pktB, pktB, pktA] 0 5).most_common_type =
      some "a" ∧
    firstToReachMax (([pktA, pktB, pktB, pktA].filter
      (fun p => p.severity ≥ 0)).map (fun p => p.threat_type)) = some "b" ∧
    (some "a" : Option String) ≠ some "b" := by
  refine ⟨rfl, by decide, by decide⟩

/-- Witness for the amended C9 on the `a, b, b, a` input. -/
theorem analyzeThreats_most_common_stable_witness :
    (analyzeThreats [pktA, pktB, pktB, pktA] 0 5).most_common_type =
      specMostCommonType (([pktA, pktB, pktB, pktA].filter
        (fun p => p.severity ≥ 0)).map (fun p => p.threat_type)) :=
  analyzeThreats_most_common_stable [pktA, pktB, pktB, pktA] 0 5 (by decide)

/-- C3 (code bug). On the regression test's own input — one valid and one
unparsable timestamp, `bucket = "day"` — the call does not raise and
produces exactly one trend point, but the skipped packet is counted
nowhere: no `invalid_timestamp_count` key exists in the returned
dictionary, so the test's assertion
`trends["invalid_timestamp_count"] == 1` cannot hold. -/
theorem detectThreatTrends_missing_invalid_count :
    (detectThreatTrends [pktGood, pktBadTs] 0 "day").points =
      [⟨"2026-01-01", 1, 0⟩] ∧
    (detectThreatTrends [pktGood, pktBadTs] 0 "day").trend_direction =
      "unknown" ∧
    "invalid_timestamp_count" ∉ trendsResultKeys := by
  refine ⟨by decide, by decide, by decide⟩

/-- C2 (code bug). `save_snapshot` never succeeds: `AdaptiveState` is a
plain dataclass with no `copy` method, so `state.copy()` raises
`AttributeError` for every input and no snapshot is ever stored —
contradicting both the claim and the code's own comment
(`# ensure immutable snapshot`). -/
theorem save_snapshot_always_raises (nowIso : String)
    (snapshots : List StateSnapshot) (state : AdaptiveState) :
    save_snapshot nowIso snapshots state =
      Except.error "AttributeError: 'AdaptiveState' object has no attribute 'copy'" := rfl

end DQAC
